import Mathlib

/-!
Shallow embedding of the CordasLivre front-end (src/src/App.tsx).

The repository is a single-page storefront.  The parts with behavioural
content are:
  * `fetchProductsWithRetry` — bounded retry loop around one HTTP GET;
  * `resolveApiBaseUrl` — base-URL resolution with a loopback guard;
  * derived view state (`topProduct`, `lowestPrice`, `highestPrice`);
  * `handleGenerateAiReview` — single POST with error flag, no retry;
  * the product-fetch effect (`useEffect` on `selectedType`) and the
    AI-review modal state transitions.

Network calls are modelled by oracles (functions from attempt number to
an `Except` result); React state updates are modelled as explicit state
transformers.  Machine numbers that only ever hold small integers are
`Nat`; prices (JS doubles used only for comparison) are `Rat`.
-/

namespace CordasLivre

/-- The six instrument categories of `StringType` in App.tsx. -/
inductive StringType where
  | VIOLAO
  | GUITARRA
  | CONTRABAIXO
  | CAVAQUINHO
  | VIOLA_CAIPIRA
  | VIOLINO
deriving DecidableEq, Repr

/-- The `Product` interface of App.tsx. -/
structure Product where
  id : String
  mlId : String
  type : StringType
  title : String
  price : Rat
  rank : Nat
  ratingAvg : Option Rat
  ratingCount : Nat
  thumbnail : String
  permalink : String
deriving DecidableEq, Repr

/-- `DEFAULT_API_URL` in App.tsx. -/
def DEFAULT_API_URL : String := "https://cordaslivre-back-end.onrender.com"

/-! ## Base-URL resolution

`resolveApiBaseUrl` reads `import.meta.env.VITE_API_URL` (modelled as a
`String`, empty when unset) and `window.location.hostname` (modelled as an
`Option String`, `none` when `typeof window === 'undefined'`). -/

/-- ASCII lower-casing of one character (the only case folding exercised by
the hostnames and URL patterns involved). -/
def lowerChar (c : Char) : Char :=
  if 'A' ≤ c && c ≤ 'Z' then Char.ofNat (c.toNat + 32) else c

/-- JS `String.prototype.toLowerCase()` restricted to ASCII case folding. -/
def toLowerStr (s : String) : String :=
  ⟨s.data.map lowerChar⟩

/-- Whitespace as removed by JS `String.prototype.trim()` (the forms that
can occur in an environment variable). -/
def isWsChar (c : Char) : Bool :=
  c == ' ' || c == '\t' || c == '\n' || c == '\r'

/-- Drop leading whitespace characters. -/
def dropLeadingWs : List Char → List Char
  | [] => []
  | c :: cs => if isWsChar c then dropLeadingWs cs else c :: cs

/-- JS `String.prototype.trim()`: whitespace removed from both ends. -/
def trimStr (s : String) : String :=
  ⟨((dropLeadingWs s.data).reverse |> dropLeadingWs).reverse⟩

/-- `startsWithSeq pat cs`: `pat` occurs at the head of `cs`. -/
def startsWithSeq : List Char → List Char → Bool
  | [], _ => true
  | _ :: _, [] => false
  | p :: ps, c :: cs => p == c && startsWithSeq ps cs

/-- `containsSeq pat cs`: `pat` occurs contiguously somewhere in `cs`. -/
def containsSeq (pat : List Char) : List Char → Bool
  | [] => startsWithSeq pat []
  | c :: cs => startsWithSeq pat (c :: cs) || containsSeq pat cs

/-- `envUrl.replace(/\/$/, '')`: the anchored regex removes exactly one
trailing slash when present. -/
def stripTrailingSlash (s : String) : String :=
  if s.data.getLast? == some '/' then ⟨s.data.dropLast⟩ else s

/-- `/^(localhost|127\.0\.0\.1)$/i.test(hostname)`: the whole hostname is
`localhost` (case-insensitively) or `127.0.0.1`. -/
def isLoopbackHostname (h : String) : Bool :=
  toLowerStr h == "localhost" || toLowerStr h == "127.0.0.1"

/-- Case-insensitive substring test, as performed by an unanchored
`/pat/i.test(s)` for a literal lower-case pattern. -/
def containsSubstringCI (s pat : String) : Bool :=
  containsSeq pat.data (toLowerStr s).data

/-- `/localhost|127\.0\.0\.1/i.test(normalized)`. -/
def envPointsToLocal (normalized : String) : Bool :=
  containsSubstringCI normalized "localhost" || containsSubstringCI normalized "127.0.0.1"

/-- `resolveApiBaseUrl` in App.tsx. -/
def resolveApiBaseUrl (envUrl : String) (hostname : Option String) : String :=
  let envUrl := trimStr envUrl
  if envUrl = "" then
    DEFAULT_API_URL
  else
    let normalized := stripTrailingSlash envUrl
    match hostname with
    | some h =>
      if !isLoopbackHostname h && envPointsToLocal normalized then DEFAULT_API_URL
      else normalized
    | none => normalized

/-- `API_BASE_URL = resolveApiBaseUrl()`, evaluated at module load; here
fixed at its value in a deployment with no `VITE_API_URL` override (the
theorems about the fetch routines do not depend on the base value). -/
def API_BASE_URL : String := resolveApiBaseUrl "" none

/-! ## Fetch with retry

`fetchProductsWithRetry` performs up to `retries` attempts of
`axios.get(API_BASE_URL ++ "/strings", { timeout: 25000, params: { type } })`,
sleeping `delayMs` between consecutive attempts (`if (attempt < retries) await wait(delayMs)`),
and rethrows the last error when every attempt failed.

The network is an oracle mapping the attempt number (1-based, as in the
source `for` loop) to either a payload or an error.  The model records,
alongside the returned value, the list of GET requests issued and the list
of sleeps performed, in order. -/

/-- One `axios.get` request as issued by `fetchProductsWithRetry`:
fixed url `{base}/strings`, the `type` query parameter, timeout 25000 ms. -/
structure GetRequest where
  url : String
  typeParam : StringType
  timeoutMs : Nat
deriving DecidableEq, Repr

/-- Outcome of running the retry loop: the value (`Except.error none`
models rethrowing an undefined `lastError`, possible only when
`retries = 0`), the GET requests issued and the delays awaited. -/
structure RetryResult (ε α : Type) where
  value : Except (Option ε) α
  requests : List GetRequest
  waits : List Nat
deriving Repr

/-- The request issued on every attempt of `fetchProductsWithRetry`. -/
def stringsRequest (type : StringType) : GetRequest :=
  { url := API_BASE_URL ++ "/strings", typeParam := type, timeoutMs := 25000 }

/-- The `for (let attempt = 1; attempt <= retries; attempt++)` loop body of
`fetchProductsWithRetry`: on success return the payload; on error record it
as `lastError` and, when `attempt < retries`, await `wait delayMs` before
the next iteration; after the loop, `throw lastError`. -/
def retryLoop {ε α : Type} (oracle : Nat → Except ε α) (type : StringType)
    (retries delayMs : Nat) (attempt : Nat) (lastError : Option ε) :
    RetryResult ε α :=
  if _h : attempt ≤ retries then
    match oracle attempt with
    | .ok a => { value := .ok a, requests := [stringsRequest type], waits := [] }
    | .error e =>
      if attempt < retries then
        let rest := retryLoop oracle type retries delayMs (attempt + 1) (some e)
        { value := rest.value
          requests := stringsRequest type :: rest.requests
          waits := delayMs :: rest.waits }
      else
        { value := .error (some e), requests := [stringsRequest type], waits := [] }
  else
    { value := .error lastError, requests := [], waits := [] }
termination_by retries + 1 - attempt
decreasing_by omega

/-- `fetchProductsWithRetry(type, retries = 5, delayMs = 2000)`; the loop
starts at `attempt = 1` with `lastError` undefined. -/
def fetchProductsWithRetry {ε α : Type} (oracle : Nat → Except ε α)
    (type : StringType) (retries delayMs : Nat) : RetryResult ε α :=
  retryLoop oracle type retries delayMs 1 none

/-- Unfolding the loop across a block of failing attempts that ends in a
success: if the `j` attempts starting at `attempt` fail and attempt
`attempt + j` succeeds within the bound, the loop returns the successful
payload, issues `j + 1` requests and sleeps `j` times. -/
theorem retryLoop_success {ε α : Type} (oracle : Nat → Except ε α) (type : StringType)
    (retries delayMs : Nat) (a : α) :
    ∀ (j attempt : Nat) (lastError : Option ε),
      attempt + j ≤ retries →
      (∀ i, attempt ≤ i → i < attempt + j → ∃ e, oracle i = Except.error e) →
      oracle (attempt + j) = Except.ok a →
      retryLoop oracle type retries delayMs attempt lastError =
        { value := .ok a
          requests := List.replicate (j + 1) (stringsRequest type)
          waits := List.replicate j delayMs } := by
  intro j
  induction j with
  | zero =>
    intro attempt lastError hle _ hsucc
    rw [retryLoop, dif_pos (show attempt ≤ retries by omega)]
    simp only [Nat.add_zero] at hsucc
    simp [hsucc]
  | succ j ih =>
    intro attempt lastError hle hfail hsucc
    obtain ⟨e, he⟩ := hfail attempt le_rfl (by omega)
    rw [retryLoop, dif_pos (show attempt ≤ retries by omega)]
    simp only [he]
    rw [if_pos (show attempt < retries by omega)]
    rw [ih (attempt + 1) (some e) (by omega)
      (fun i h1 h2 => hfail i (by omega) (by omega))
      (by rw [show attempt + 1 + j = attempt + (j + 1) by omega]; exact hsucc)]
    simp [List.replicate_succ]

/-- Unfolding the loop across a block of failing attempts that exhausts the
bound: if every attempt from `attempt` to `retries` fails, the loop rethrows
the error of attempt `retries`, issues `retries - attempt + 1` requests and
sleeps between consecutive attempts only. -/
theorem retryLoop_allFail {ε α : Type} (oracle : Nat → Except ε α) (type : StringType)
    (retries delayMs : Nat) (eLast : ε) :
    ∀ (j attempt : Nat) (lastError : Option ε),
      attempt + j = retries →
      (∀ i, attempt ≤ i → i ≤ retries → ∃ e, oracle i = Except.error e) →
      oracle retries = Except.error eLast →
      retryLoop oracle type retries delayMs attempt lastError =
        { value := .error (some eLast)
          requests := List.replicate (j + 1) (stringsRequest type)
          waits := List.replicate j delayMs } := by
  intro j
  induction j with
  | zero =>
    intro attempt lastError heq _ hlast
    have hA : attempt = retries := by omega
    subst hA
    rw [retryLoop, dif_pos le_rfl]
    simp only [hlast]
    rw [if_neg (by omega)]
    rfl
  | succ j ih =>
    intro attempt lastError heq hfail hlast
    obtain ⟨e, he⟩ := hfail attempt le_rfl (by omega)
    rw [retryLoop, dif_pos (show attempt ≤ retries by omega)]
    simp only [he]
    rw [if_pos (show attempt < retries by omega)]
    rw [ih (attempt + 1) (some e) (by omega)
      (fun i h1 h2 => hfail i (by omega) h2) hlast]
    simp [List.replicate_succ]

/-- C1: for every sequence of `k ≤ 4` failing attempts followed by one
successful attempt, `fetchProductsWithRetry` returns the payload of the
successful attempt, issues exactly `k + 1` GET requests (each to
`{base}/strings` with the `type` parameter and a 25000 ms timeout), and
performs exactly `k` waits of the fixed 2000 ms delay, one between each
pair of consecutive calls and none after the final call. -/
theorem fetchProductsWithRetry_success {ε α : Type} (oracle : Nat → Except ε α)
    (type : StringType) (k : Nat) (a : α)
    (hk : k ≤ 4)
    (hfail : ∀ i, 1 ≤ i → i ≤ k → ∃ e, oracle i = Except.error e)
    (hsucc : oracle (k + 1) = Except.ok a) :
    (fetchProductsWithRetry oracle type 5 2000).value = Except.ok a ∧
    (fetchProductsWithRetry oracle type 5 2000).requests =
      List.replicate (k + 1) (stringsRequest type) ∧
    (fetchProductsWithRetry oracle type 5 2000).waits = List.replicate k 2000 := by
  rw [fetchProductsWithRetry,
    retryLoop_success oracle type 5 2000 a k 1 none (by omega)
      (fun i h1 h2 => hfail i h1 (by omega))
      (by rw [show 1 + k = k + 1 by omega]; exact hsucc)]
  exact ⟨rfl, rfl, rfl⟩

/-- C2: for every sequence of 5 consecutive failing attempts,
`fetchProductsWithRetry` issues exactly 5 GET requests and rethrows the
error of the fifth (last) attempt. -/
theorem fetchProductsWithRetry_exhaust {ε α : Type} (oracle : Nat → Except ε α)
    (type : StringType) (e5 : ε)
    (hfail : ∀ i, 1 ≤ i → i ≤ 5 → ∃ e, oracle i = Except.error e)
    (h5 : oracle 5 = Except.error e5) :
    (fetchProductsWithRetry oracle type 5 2000).value = Except.error (some e5) ∧
    (fetchProductsWithRetry oracle type 5 2000).requests =
      List.replicate 5 (stringsRequest type) := by
  rw [fetchProductsWithRetry,
    retryLoop_allFail oracle type 5 2000 e5 4 1 none (by omega) hfail h5]
  exact ⟨rfl, rfl⟩

/-! ## Concrete data for witnesses -/

/-- A concrete product used to instantiate the theorems. -/
def sampleProduct : Product :=
  { id := "p1", mlId := "MLB100"
    type := .VIOLAO, title := "Encordoamento para violão"
    price := 50, rank := 1, ratingAvg := some 5, ratingCount := 120
    thumbnail := "https://example.com/p1.jpg"
    permalink := "https://example.com/p1" }

/-- An oracle whose first two attempts fail and whose third succeeds. -/
def flakyOracle : Nat → Except String (List Product) := fun i =>
  if i ≤ 2 then Except.error "network" else Except.ok [sampleProduct]

/-- An oracle all of whose attempts fail, each with its attempt number. -/
def failingOracle : Nat → Except Nat (List Product) := fun i => Except.error i

theorem fetchProductsWithRetry_success_witness :
    (fetchProductsWithRetry flakyOracle .VIOLAO 5 2000).value = Except.ok [sampleProduct] ∧
    (fetchProductsWithRetry flakyOracle .VIOLAO 5 2000).requests =
      List.replicate 3 (stringsRequest .VIOLAO) ∧
    (fetchProductsWithRetry flakyOracle .VIOLAO 5 2000).waits = List.replicate 2 2000 :=
  fetchProductsWithRetry_success flakyOracle .VIOLAO 2 [sampleProduct] (by omega)
    (fun i _ h2 => ⟨"network", if_pos h2⟩) rfl

theorem fetchProductsWithRetry_exhaust_witness :
    (fetchProductsWithRetry failingOracle .GUITARRA 5 2000).value = Except.error (some 5) ∧
    (fetchProductsWithRetry failingOracle .GUITARRA 5 2000).requests =
      List.replicate 5 (stringsRequest .GUITARRA) :=
  fetchProductsWithRetry_exhaust failingOracle .GUITARRA 5
    (fun i _ _ => ⟨i, rfl⟩) rfl

/-! ## Derived view state -/

/-- `products.find((product) => product.rank === 1) || products[0]`.  A
`Product` object is always truthy, so the `||` fallback fires exactly when
`find` yields `undefined`; `products[0]` is itself `undefined` on the empty
list. -/
def topProduct (products : List Product) : Option Product :=
  match products.find? (fun product => product.rank == 1) with
  | some p => some p
  | none => products.head?

/-- C3: the derived top product is an element of rank 1 whenever the list
contains one, regardless of its position; when a non-empty list contains no
rank-1 element, the top product is the first element. -/
theorem topProduct_spec (products : List Product) :
    ((∃ p ∈ products, p.rank = 1) →
      ∃ q, topProduct products = some q ∧ q ∈ products ∧ q.rank = 1) ∧
    (products ≠ [] → (∀ p ∈ products, p.rank ≠ 1) →
      topProduct products = products.head?) := by
  constructor
  · rintro ⟨p, hp, hrank⟩
    have hs : (products.find? (fun product => product.rank == 1)).isSome := by
      rw [List.find?_isSome]
      exact ⟨p, hp, by simp [hrank]⟩
    obtain ⟨q, hq⟩ := Option.isSome_iff_exists.mp hs
    refine ⟨q, ?_, List.mem_of_find?_eq_some hq, by simpa using List.find?_some hq⟩
    simp [topProduct, hq]
  · intro _ hnone
    have hn : products.find? (fun product => product.rank == 1) = none := by
      rw [List.find?_eq_none]
      intro p hp
      simp [hnone p hp]
    simp [topProduct, hn]

/-- A rank-3 product, listed first in the spec's example. -/
def productRank3 : Product := { sampleProduct with id := "p3", rank := 3 }

/-- A rank-1 product, listed second in the spec's example. -/
def productRank1 : Product := { sampleProduct with id := "p1", rank := 1 }

/-- A rank-2 product, listed third in the spec's example. -/
def productRank2 : Product := { sampleProduct with id := "p2", rank := 2 }

/-- The spec's example list with ranks `[3, 1, 2]`. -/
def exampleProducts : List Product := [productRank3, productRank1, productRank2]

theorem topProduct_spec_witness :
    ∃ q, topProduct exampleProducts = some q ∧ q ∈ exampleProducts ∧ q.rank = 1 :=
  (topProduct_spec exampleProducts).1
    ⟨productRank1, by simp [exampleProducts], rfl⟩

/-- `products.length ? Math.min(...products.map((product) => product.price)) : 0`.
`Math.min` over a non-empty spread folds the binary minimum over the
arguments. -/
def lowestPrice (products : List Product) : Rat :=
  match products.map (fun product => product.price) with
  | [] => 0
  | p :: ps => ps.foldl min p

/-- `products.length ? Math.max(...products.map((product) => product.price)) : 0`. -/
def highestPrice (products : List Product) : Rat :=
  match products.map (fun product => product.price) with
  | [] => 0
  | p :: ps => ps.foldl max p

/-- Folding `min` over a list yields the seed or a list element, and bounds
the seed and every element from below. -/
theorem foldl_min_spec (ps : List Rat) : ∀ p : Rat,
    (ps.foldl min p = p ∨ ps.foldl min p ∈ ps) ∧
    ps.foldl min p ≤ p ∧ ∀ q ∈ ps, ps.foldl min p ≤ q := by
  induction ps with
  | nil => exact fun p => ⟨Or.inl rfl, le_refl p, by simp⟩
  | cons head tail ih =>
    intro p
    simp only [List.foldl_cons]
    obtain ⟨hmem, hle, hall⟩ := ih (min p head)
    refine ⟨?_, hle.trans (min_le_left _ _), ?_⟩
    · rcases hmem with h | h
      · rcases min_choice p head with hc | hc
        · exact Or.inl (h.trans hc)
        · exact Or.inr (by rw [h, hc]; exact List.mem_cons_self _ _)
      · exact Or.inr (List.mem_cons_of_mem _ h)
    · intro q hq
      rcases List.mem_cons.mp hq with h | h
      · rw [h]; exact hle.trans (min_le_right _ _)
      · exact hall q h

/-- Folding `max` over a list yields the seed or a list element, and bounds
the seed and every element from above. -/
theorem foldl_max_spec (ps : List Rat) : ∀ p : Rat,
    (ps.foldl max p = p ∨ ps.foldl max p ∈ ps) ∧
    p ≤ ps.foldl max p ∧ ∀ q ∈ ps, q ≤ ps.foldl max p := by
  induction ps with
  | nil => exact fun p => ⟨Or.inl rfl, le_refl p, by simp⟩
  | cons head tail ih =>
    intro p
    simp only [List.foldl_cons]
    obtain ⟨hmem, hle, hall⟩ := ih (max p head)
    refine ⟨?_, (le_max_left _ _).trans hle, ?_⟩
    · rcases hmem with h | h
      · rcases max_choice p head with hc | hc
        · exact Or.inl (h.trans hc)
        · exact Or.inr (by rw [h, hc]; exact List.mem_cons_self _ _)
      · exact Or.inr (List.mem_cons_of_mem _ h)
    · intro q hq
      rcases List.mem_cons.mp hq with h | h
      · rw [h]; exact (le_max_right _ _).trans hle
      · exact hall q h

/-- C5: on a non-empty product list, `lowestPrice` and `highestPrice` are
attained prices and bound every price from below and above respectively; on
the empty list both return the fallback `0`. -/
theorem price_bounds_spec (products : List Product) :
    (products ≠ [] →
      ((∃ p ∈ products, lowestPrice products = p.price) ∧
       (∀ p ∈ products, lowestPrice products ≤ p.price) ∧
       (∃ p ∈ products, highestPrice products = p.price) ∧
       (∀ p ∈ products, p.price ≤ highestPrice products))) ∧
    lowestPrice [] = 0 ∧ highestPrice [] = 0 := by
  refine ⟨?_, rfl, rfl⟩
  intro hne
  obtain ⟨hd, tl, rfl⟩ := List.exists_cons_of_ne_nil hne
  have hlow : lowestPrice (hd :: tl) =
      (tl.map (fun product => product.price)).foldl min hd.price := by
    simp [lowestPrice]
  have hhigh : highestPrice (hd :: tl) =
      (tl.map (fun product => product.price)).foldl max hd.price := by
    simp [highestPrice]
  obtain ⟨hminMem, hminSeed, hminAll⟩ := foldl_min_spec (tl.map (fun product => product.price)) hd.price
  obtain ⟨hmaxMem, hmaxSeed, hmaxAll⟩ := foldl_max_spec (tl.map (fun product => product.price)) hd.price
  refine ⟨?_, ?_, ?_, ?_⟩
  · rcases hminMem with h | h
    · exact ⟨hd, List.mem_cons_self _ _, hlow.trans h⟩
    · obtain ⟨q, hq, hqe⟩ := List.mem_map.mp h
      exact ⟨q, List.mem_cons_of_mem _ hq, hlow.trans hqe.symm⟩
  · intro p hp
    rcases List.mem_cons.mp hp with h | h
    · rw [hlow, h]; exact hminSeed
    · rw [hlow]; exact hminAll p.price (List.mem_map.mpr ⟨p, h, rfl⟩)
  · rcases hmaxMem with h | h
    · exact ⟨hd, List.mem_cons_self _ _, hhigh.trans h⟩
    · obtain ⟨q, hq, hqe⟩ := List.mem_map.mp h
      exact ⟨q, List.mem_cons_of_mem _ hq, hhigh.trans hqe.symm⟩
  · intro p hp
    rcases List.mem_cons.mp hp with h | h
    · rw [hhigh, h]; exact hmaxSeed
    · rw [hhigh]; exact hmaxAll p.price (List.mem_map.mpr ⟨p, h, rfl⟩)

theorem price_bounds_spec_witness :
    ((∃ p ∈ exampleProducts, lowestPrice exampleProducts = p.price) ∧
     (∀ p ∈ exampleProducts, lowestPrice exampleProducts ≤ p.price) ∧
     (∃ p ∈ exampleProducts, highestPrice exampleProducts = p.price) ∧
     (∀ p ∈ exampleProducts, p.price ≤ highestPrice exampleProducts)) :=
  (price_bounds_spec exampleProducts).1 (by simp [exampleProducts])

/-- C4: for every environment override and page hostname, the (trimmed,
trailing-slash-stripped) override is used, unless it points at a loopback
address while the hostname is not loopback, in which case the hardcoded
default wins; in particular the override `http://localhost:9999` yields the
default on a non-loopback host and is preserved unchanged on a loopback
host. -/
theorem resolveApiBaseUrl_spec (envUrl h : String) :
    (trimStr envUrl ≠ "" →
      isLoopbackHostname h = false →
      envPointsToLocal (stripTrailingSlash (trimStr envUrl)) = true →
      resolveApiBaseUrl envUrl (some h) = DEFAULT_API_URL) ∧
    (trimStr envUrl ≠ "" →
      (isLoopbackHostname h = true ∨
        envPointsToLocal (stripTrailingSlash (trimStr envUrl)) = false) →
      resolveApiBaseUrl envUrl (some h) = stripTrailingSlash (trimStr envUrl)) ∧
    (isLoopbackHostname h = false →
      resolveApiBaseUrl "http://localhost:9999" (some h) = DEFAULT_API_URL) ∧
    (isLoopbackHostname h = true →
      resolveApiBaseUrl "http://localhost:9999" (some h) = "http://localhost:9999") := by
  refine ⟨?_, ?_, ?_, ?_⟩
  · intro hne hloc hpts
    rw [resolveApiBaseUrl]
    simp only [if_neg hne, hloc, hpts, Bool.not_false, Bool.true_and, if_true]
  · intro hne hd
    rw [resolveApiBaseUrl]
    rcases hd with hloc | hpts
    · simp only [if_neg hne, hloc, Bool.not_true, Bool.false_and,
        Bool.false_eq_true, if_false]
    · simp only [if_neg hne, hpts, Bool.and_false, Bool.false_eq_true, if_false]
  · intro hloc
    rw [resolveApiBaseUrl]
    simp only [hloc]
    decide
  · intro hloc
    rw [resolveApiBaseUrl]
    simp only [hloc]
    decide

theorem resolveApiBaseUrl_spec_witness :
    resolveApiBaseUrl "http://localhost:9999" (some "cordaslivre.example.com") =
      DEFAULT_API_URL ∧
    resolveApiBaseUrl "http://localhost:9999" (some "localhost") =
      "http://localhost:9999" ∧
    resolveApiBaseUrl "http://127.0.0.1:5000/" (some "cordaslivre.example.com") =
      DEFAULT_API_URL ∧
    resolveApiBaseUrl "https://api.example.com/" (some "cordaslivre.example.com") =
      "https://api.example.com" :=
  ⟨(resolveApiBaseUrl_spec "http://localhost:9999" "cordaslivre.example.com").2.2.1
      (by decide),
   (resolveApiBaseUrl_spec "http://localhost:9999" "localhost").2.2.2 (by decide),
   (resolveApiBaseUrl_spec "http://127.0.0.1:5000/" "cordaslivre.example.com").1
      (by decide) (by decide) (by decide),
   ((resolveApiBaseUrl_spec "https://api.example.com/" "cordaslivre.example.com").2.1
      (by decide) (Or.inr (by decide))).trans (by decide)⟩

/-! ## Application state and its transitions

The second variant of App.tsx holds nine `useState` hooks; each handler is
modelled as a state transformer.  Network effects take the outcome of the
single HTTP call as an explicit argument. -/

/-- The `'baixa' | 'media' | 'alta'` confidence union of `AiReviewData`. -/
inductive AiConfidence where
  | baixa
  | media
  | alta
deriving DecidableEq, Repr

/-- The `AiReviewData` interface of App.tsx. -/
structure AiReviewData where
  title : String
  summary : String
  pros : List String
  attentionPoints : List String
  verdict : String
  confidence : AiConfidence
  generatedAt : String
deriving DecidableEq, Repr

/-- The `product` echo inside `AiReviewResponse`. -/
structure AiReviewProductEcho where
  title : String
  price : Rat
  ratingAvg : Option Rat
  ratingCount : Nat
  type : StringType
  permalink : Option String
deriving DecidableEq, Repr

/-- The `AiReviewResponse` interface of App.tsx. -/
structure AiReviewResponse where
  product : AiReviewProductEcho
  review : AiReviewData
deriving DecidableEq, Repr

/-- The `useState` hooks of `App` (second variant). -/
structure AppState where
  products : List Product
  loading : Bool
  hasError : Bool
  selectedType : StringType
  aiModalOpen : Bool
  aiReviewLoading : Bool
  aiReviewError : Option String
  aiReviewData : Option AiReviewData
  aiReviewProduct : Option Product
deriving DecidableEq, Repr

/-- The initial values of the `useState` hooks. -/
def initialAppState : AppState :=
  { products := [], loading := true, hasError := false
    selectedType := .VIOLAO, aiModalOpen := false, aiReviewLoading := false
    aiReviewError := none, aiReviewData := none, aiReviewProduct := none }

/-- The user-facing message set by `handleGenerateAiReview` on failure. -/
def AI_REVIEW_ERROR_MESSAGE : String :=
  "Não foi possível gerar a avaliação IA agora. Tente novamente em instantes."

/-- One `axios.post` request as issued by `handleGenerateAiReview`:
url `{base}/strings/ai-review`, the six body fields taken from the product,
timeout 25000 ms. -/
structure PostRequest where
  url : String
  title : String
  price : Rat
  ratingAvg : Option Rat
  ratingCount : Nat
  type : StringType
  permalink : String
  timeoutMs : Nat
deriving DecidableEq, Repr

/-- The request `handleGenerateAiReview` issues for a product. -/
def aiReviewRequest (product : Product) : PostRequest :=
  { url := API_BASE_URL ++ "/strings/ai-review"
    title := product.title, price := product.price
    ratingAvg := product.ratingAvg, ratingCount := product.ratingCount
    type := product.type, permalink := product.permalink
    timeoutMs := 25000 }

/-- `handleGenerateAiReview(product)`: open the modal, enter the loading
state, clear the previous error/review, remember the product, issue one
POST, then either store the fresh review or set the error message; in both
branches `finally` clears the loading flag.  The result pairs the list of
POST requests issued with the final state. -/
def handleGenerateAiReview {ε : Type} (s : AppState) (product : Product)
    (postResult : Except ε AiReviewResponse) : List PostRequest × AppState :=
  let s1 := { s with aiModalOpen := true, aiReviewLoading := true
                     aiReviewError := none, aiReviewData := none
                     aiReviewProduct := some product }
  match postResult with
  | .ok resp =>
    ([aiReviewRequest product],
     { s1 with aiReviewData := some resp.review, aiReviewLoading := false })
  | .error _ =>
    ([aiReviewRequest product],
     { s1 with aiReviewError := some AI_REVIEW_ERROR_MESSAGE, aiReviewLoading := false })

/-- The `useEffect` body on `selectedType`: `setLoading(true)`, run the
fetch, on success `setProducts(data); setHasError(false)`, on failure
`setHasError(true)`, and in both cases `finally setLoading(false)`. -/
def runFetchEffect {ε : Type} (s : AppState) (result : Except ε (List Product)) : AppState :=
  let s1 := { s with loading := true }
  match result with
  | .ok data => { s1 with products := data, hasError := false, loading := false }
  | .error _ => { s1 with hasError := true, loading := false }

/-- The close button of the AI modal: `onClick={() => setAiModalOpen(false)}`. -/
def closeAiModal (s : AppState) : AppState :=
  { s with aiModalOpen := false }

/-- C6: `handleGenerateAiReview` issues exactly one POST (the six body
fields from the product, 25000 ms timeout) whatever the outcome; on failure
no further request is made and the error indicator is set (with no review
stored); on success the stored review is replaced by the fresh one (with no
error). -/
theorem handleGenerateAiReview_spec {ε : Type} (s : AppState) (product : Product)
    (r : Except ε AiReviewResponse) :
    (handleGenerateAiReview s product r).1 = [aiReviewRequest product] ∧
    (∀ e, r = Except.error e →
      (handleGenerateAiReview s product r).2.aiReviewError = some AI_REVIEW_ERROR_MESSAGE ∧
      (handleGenerateAiReview s product r).2.aiReviewData = none) ∧
    (∀ resp, r = Except.ok resp →
      (handleGenerateAiReview s product r).2.aiReviewData = some resp.review ∧
      (handleGenerateAiReview s product r).2.aiReviewError = none) := by
  cases r <;> simp [handleGenerateAiReview]

theorem handleGenerateAiReview_spec_witness :
    (handleGenerateAiReview initialAppState sampleProduct
        (Except.error "timeout")).1 = [aiReviewRequest sampleProduct] ∧
    (handleGenerateAiReview initialAppState sampleProduct
        (Except.error "timeout")).2.aiReviewError = some AI_REVIEW_ERROR_MESSAGE ∧
    (handleGenerateAiReview initialAppState sampleProduct
        (Except.error "timeout")).2.aiReviewData = none :=
  ⟨(handleGenerateAiReview_spec initialAppState sampleProduct (Except.error "timeout")).1,
   ((handleGenerateAiReview_spec initialAppState sampleProduct
      (Except.error "timeout")).2.1 "timeout" rfl).1,
   ((handleGenerateAiReview_spec initialAppState sampleProduct
      (Except.error "timeout")).2.1 "timeout" rfl).2⟩

/-- C9: on every successful fetch the stored product list is replaced
wholesale by the fetched payload, independently of the previous state. -/
theorem fetch_success_replaces_products (s : AppState) (data : List Product) :
    (runFetchEffect s (Except.ok data : Except String (List Product))).products = data ∧
    (runFetchEffect s (Except.ok data : Except String (List Product))).hasError = false :=
  ⟨rfl, rfl⟩

/-- C10: when the fetch fails after exhausting its retries, the stored
product list is left unchanged; only the error flag is set to `true` and
the loading flag to `false`. -/
theorem fetch_failure_keeps_products {ε : Type} (s : AppState) (e : ε) :
    runFetchEffect s (Except.error e) = { s with hasError := true, loading := false } ∧
    (runFetchEffect s (Except.error e)).products = s.products ∧
    (runFetchEffect s (Except.error e)).hasError = true ∧
    (runFetchEffect s (Except.error e)).loading = false :=
  ⟨rfl, rfl, rfl, rfl⟩

/-! ## Overlapping fetches (filter switching while a fetch is pending)

Selecting a filter re-runs the `useEffect`; the in-flight request is not
cancelled and its `.then` callback carries no request-generation token, so
each successful resolution unconditionally runs
`setProducts(data); setHasError(false)` and `finally setLoading(false)`. -/

/-- A resolved product fetch: the filter with which the request was
initiated and the payload its `.then` callback delivers. -/
structure FetchCompletion where
  filter : StringType
  payload : List Product
deriving DecidableEq, Repr

/-- Two overlapping fetches: `first` was initiated first and `second` was
initiated while `first` was still pending (so `second.filter` is the most
recently selected filter).  `oldResolvesLast` selects the interleaving of
the two resolutions. -/
structure OverlappingFetches where
  first : FetchCompletion
  second : FetchCompletion
  oldResolvesLast : Bool
deriving DecidableEq, Repr

/-- The success path run at resolution time:
`setProducts(data); setHasError(false)` then `finally setLoading(false)`. -/
def resolveSuccess (s : AppState) (c : FetchCompletion) : AppState :=
  { s with products := c.payload, hasError := false, loading := false }

/-- Final state after both overlapping fetches resolve successfully, in the
order chosen by `oldResolvesLast` (both effects have set `loading := true`
at initiation). -/
def finalStateAfterRace (s : AppState) (e : OverlappingFetches) : AppState :=
  let started := { s with loading := true }
  if e.oldResolvesLast then resolveSuccess (resolveSuccess started e.second) e.first
  else resolveSuccess (resolveSuccess started e.first) e.second

/-- The interleaving in which the older fetch resolves after the newer
one, with distinguishable payloads. -/
def staleRace : OverlappingFetches :=
  { first := { filter := .VIOLAO, payload := [productRank1] }
    second := { filter := .GUITARRA, payload := [productRank2] }
    oldResolvesLast := true }

/-- C7 counterexample: when the fetch initiated first resolves last, the
final displayed list is the older request's payload, not that of the most
recently initiated request — the code has no request-generation guard. -/
theorem race_stale_overwrite_counterexample :
    (finalStateAfterRace initialAppState staleRace).products ≠ staleRace.second.payload ∧
    (finalStateAfterRace initialAppState staleRace).products = staleRace.first.payload := by
  constructor
  · decide
  · rfl

/-- C7 amended: with no request-generation guard, the final displayed list
is the payload of whichever fetch resolves last; it corresponds to the most
recently initiated request exactly in the interleaving where the older
fetch resolves first. -/
theorem race_last_resolution_wins (s : AppState) (e : OverlappingFetches) :
    (finalStateAfterRace s e).products =
      (if e.oldResolvesLast then e.first.payload else e.second.payload) := by
  cases e with
  | mk f sec b => cases b <;> rfl

/-! ## AI-review lifecycle across the modal -/

/-- A concrete generated review. -/
def sampleReview : AiReviewData :=
  { title := "Encordoamento para violão"
    summary := "Boa relação entre preço e durabilidade."
    pros := ["Afinação estável"]
    attentionPoints := ["Tensão alta para iniciantes"]
    verdict := "Vale a compra."
    confidence := .alta
    generatedAt := "2026-01-01T00:00:00Z" }

/-- A state in which a review has been generated and is on display. -/
def stateWithReview : AppState :=
  { initialAppState with
      loading := false, aiModalOpen := true
      aiReviewData := some sampleReview, aiReviewProduct := some sampleProduct }

/-- C8 counterexample: closing the modal runs only `setAiModalOpen(false)`;
the previously generated review remains in state after the modal is
dismissed. -/
theorem closeAiModal_retains_review_counterexample :
    (closeAiModal stateWithReview).aiModalOpen = false ∧
    (closeAiModal stateWithReview).aiReviewData = some sampleReview ∧
    (closeAiModal stateWithReview).aiReviewData ≠ none :=
  ⟨rfl, rfl, Option.some_ne_none sampleReview⟩

/-- C8 amended: a review is produced on demand per product and never
carried over between generations — each run of `handleGenerateAiReview`
records the new product and leaves as stored review either `none` (failure)
or the fresh response's review, never the previous one.  Dismissing the
modal, however, only hides the surface: the last review stays in state
until the next generation resets it. -/
theorem aiReview_not_cached_modal_keeps_state {ε : Type} (s : AppState)
    (product : Product) (r : Except ε AiReviewResponse) :
    (closeAiModal s).aiModalOpen = false ∧
    (closeAiModal s).aiReviewData = s.aiReviewData ∧
    (handleGenerateAiReview s product r).2.aiReviewProduct = some product ∧
    ((handleGenerateAiReview s product r).2.aiReviewData = none ∨
      ∃ resp, r = Except.ok resp ∧
        (handleGenerateAiReview s product r).2.aiReviewData = some resp.review) := by
  refine ⟨rfl, rfl, ?_, ?_⟩ <;> cases r <;> simp [handleGenerateAiReview]

end CordasLivre
